import Mathlib

/-!
Verification of the transfer engine of the `ftp_transfer` repository.
The definitions below are shallow embeddings of `src/ftp_transfer/core.py`,
`src/ftp_transfer/ftp_operations.py` and `src/ftp_transfer/notification.py`.
Network and filesystem interactions are abstracted as oracles (structures of
values and functions describing how each external call behaves during a run);
the control flow around those calls is translated statement by statement from
the Python source.  Exceptions are modelled with `Except`, where
`Except.error` is an exception propagating past the modelled scope.
-/

namespace FtpTransfer

/-- Python `datetime.datetime` value.  `datetime.now()` carries microseconds;
the in-range side conditions of a real datetime are `PyDateTime.Valid`. -/
structure PyDateTime where
  year : Nat
  month : Nat
  day : Nat
  hour : Nat
  minute : Nat
  second : Nat
  microsecond : Nat
deriving DecidableEq, Repr

/-- Field ranges enforced by the `datetime.datetime` constructor. -/
def PyDateTime.Valid (t : PyDateTime) : Prop :=
  1 ≤ t.year ∧ t.year ≤ 9999 ∧ 1 ≤ t.month ∧ t.month ≤ 12 ∧
  1 ≤ t.day ∧ t.day ≤ 31 ∧ t.hour ≤ 23 ∧ t.minute ≤ 59 ∧
  t.second ≤ 59 ∧ t.microsecond ≤ 999999

instance (t : PyDateTime) : Decidable t.Valid := by
  unfold PyDateTime.Valid; infer_instance

/-- Projection of a datetime to second resolution (the fields that
`strftime('%Y%m%d%H%M%S')` renders). -/
def secsKey (t : PyDateTime) : Nat × Nat × Nat × Nat × Nat × Nat :=
  (t.year, t.month, t.day, t.hour, t.minute, t.second)

/-- Zero-padded fixed-width decimal rendering, as produced by the `%Y`, `%m`,
`%d`, `%H`, `%M`, `%S` fields of `datetime.strftime` (width 4 for the year,
2 for the rest; the fields of a valid datetime never overflow their width). -/
def padDigits : Nat → Nat → List Char
  | 0, _ => []
  | w + 1, n => padDigits w (n / 10) ++ [Nat.digitChar (n % 10)]

/-- Rendering of `datetime.strftime('%Y%m%d%H%M%S')`, the 14-character
timestamp used by `FTPTransfer._generate_timestamped_filename`
(core.py line 135).  The microsecond field is not rendered. -/
def strftime14 (t : PyDateTime) : List Char :=
  padDigits 4 t.year ++ padDigits 2 t.month ++ padDigits 2 t.day ++
    padDigits 2 t.hour ++ padDigits 2 t.minute ++ padDigits 2 t.second

/-- Position of the last dot of a character list, `none` when there is none
(`p.rfind('.')` inside `posixpath._splitext`, for a plain filename). -/
def lastDotIdx (cs : List Char) : Option Nat :=
  match cs.reverse.findIdx? (fun c => c == '.') with
  | none => none
  | some j => some (cs.length - 1 - j)

/-- Translation of `os.path.splitext` restricted to plain filenames (no path
separator): split at the last dot, unless every character before that dot is
itself a dot (the leading-dots rule of `posixpath._splitext`). -/
def splitext (cs : List Char) : List Char × List Char :=
  match lastDotIdx cs with
  | none => (cs, [])
  | some i =>
    if (cs.take i).any (fun c => c != '.') then (cs.take i, cs.drop i)
    else (cs, [])

/-- Translation of `FTPTransfer._generate_timestamped_filename`
(core.py 132-136): split base and extension with `os.path.splitext`, then
produce `base + '_' + now.strftime('%Y%m%d%H%M%S') + ext`. -/
def generate_timestamped_filename (now : PyDateTime) (filename : String) : String :=
  let be := splitext filename.toList
  String.mk (be.1 ++ '_' :: (strftime14 now ++ be.2))

/-- Outcome of the `ftp.size(filename)` call inside `file_exists`: it either
succeeds, raises `ftplib.error_perm` (the file is absent), or raises some
other exception (connectivity or permission fault). -/
inductive SizeOutcome where
  | ok
  | permErr
  | otherErr
deriving DecidableEq, Repr

/-- Oracle for the FTP calls made by one invocation of `file_exists`
(ftp_operations.py 123-148): whether `pwd`, the `cwd` into the directory and
the `cwd` back succeed, and how `size` behaves. -/
structure FtpExistsEnv where
  pwdOk : Bool
  cwdDirOk : Bool
  sizeResult : SizeOutcome
  cwdBackOk : Bool
deriving DecidableEq, Repr

/-- Body of `file_exists` up to the outermost `except`: `pwd`,
`cwd(directory)`, the inner try around `size` (catching only
`ftplib.error_perm` into `exists = False`), `cwd(original_dir)`, then the
return.  `Except.error` is an exception escaping to the outer handler. -/
def file_exists_body (e : FtpExistsEnv) : Except Unit Bool :=
  if !e.pwdOk then .error ()
  else if !e.cwdDirOk then .error ()
  else
    let inner : Except Unit Bool :=
      match e.sizeResult with
      | .ok => .ok true
      | .permErr => .ok false
      | .otherErr => .error ()
    match inner with
    | .error _ => .error ()
    | .ok b => if !e.cwdBackOk then .error () else .ok b

/-- Translation of `file_exists` (ftp_operations.py 123-148): the outermost
`except Exception` logs the fault and returns `False`, so the function always
returns a boolean to its caller. -/
def file_exists (e : FtpExistsEnv) : Bool :=
  match file_exists_body e with
  | .ok b => b
  | .error _ => false

/-- Outcome of the `sftp.stat` call inside `sftp_file_exists`: success,
`FileNotFoundError`, or any other exception. -/
inductive StatOutcome where
  | found
  | notFound
  | otherErr
deriving DecidableEq, Repr

/-- Translation of `sftp_file_exists` (ftp_operations.py 296-317): `stat`
success gives `True`, `FileNotFoundError` gives `False`, and any other
exception is logged and normalized to `False`. -/
def sftp_file_exists (s : StatOutcome) : Bool :=
  match s with
  | .found => true
  | .notFound => false
  | .otherErr => false

/-- Token of the regular expression built by `_filter_files`'s pattern branch
(core.py 184-187).  The chain
`pattern.replace('.', '\\.').replace('*', '.*').replace('?', '.')` maps each
pattern character independently: a dot becomes an escaped (hence literal)
dot, `*` becomes `.*`, `?` becomes `.`, anything else is left unchanged. -/
inductive RTok where
  | lit (c : Char)
  | dot
  | dotStar
deriving DecidableEq, Repr

/-- Per-character regex translation performed by the replace chain above.
Exact for patterns whose remaining characters carry no regex meaning, cf.
`plainGlobChar` (the code escapes only the dot). -/
def globToRegex (p : List Char) : List RTok :=
  p.map fun c => if c == '*' then RTok.dotStar else if c == '?' then RTok.dot else RTok.lit c

/-- Characters for which `globToRegex` is exact with respect to Python's
`re`: alphanumerics, the dot, the two glob wildcards, underscore and
hyphen (none of these is an unescaped regex metacharacter). -/
def plainGlobChar (c : Char) : Bool :=
  c.isAlphanum || c == '.' || c == '*' || c == '?' || c == '_' || c == '-'

/-- All suffixes of a string, longest first (the candidate remainders after
a `.*` or a glob `*` consumes some run of characters). -/
def suffixes : List Char → List (List Char)
  | [] => [[]]
  | x :: xs => (x :: xs) :: suffixes xs

/-- Matching of a token list against some prefix of the string, i.e. the
`re` semantics of attempting the compiled pattern at a fixed start position
(the match need not consume the whole string).  A `.*` token consumes any
run of characters, expressed as: some suffix of the string matches the
remaining tokens — existence-equivalent to the engine's backtracking.  The
regex `.` is modelled as matching any character; this is exact for the
newline-free names produced by line-based FTP listings. -/
def rtoksMatchPre : List RTok → List Char → Bool
  | [], _ => true
  | .lit c :: ts, s =>
    match s with
    | [] => false
    | x :: xs => c == x && rtoksMatchPre ts xs
  | .dot :: ts, s =>
    match s with
    | [] => false
    | _ :: xs => rtoksMatchPre ts xs
  | .dotStar :: ts, s => (suffixes s).any (fun t => rtoksMatchPre ts t)

/-- Semantics of `re.search` (core.py 187): try to match the compiled
pattern at every start position of the string. -/
def rtoksSearch (ts : List RTok) : List Char → Bool
  | [] => rtoksMatchPre ts []
  | x :: xs => rtoksMatchPre ts (x :: xs) || rtoksSearch ts xs

/-- Glob matching as the specification states it: `*` matches any run of
characters (expressed as: dropping some run leaves a suffix matching the
rest of the pattern), `?` exactly one character, and every other pattern
character (in particular a literal dot) matches only itself; the whole name
must be matched.  This is the specification-side definition the pattern
filter is compared against. -/
def globMatch : List Char → List Char → Bool
  | [], s => s.isEmpty
  | p :: ps, s =>
    if p == '*' then (suffixes s).any (fun t => globMatch ps t)
    else
      match s with
      | [] => false
      | x :: xs => if p == '?' then globMatch ps xs else p == x && globMatch ps xs

/-- Modification and creation times reported by `get_sftp_file_info`
(ftp_operations.py 452-476); `created` is `None` when the server's stat
carries no `st_ctime`. -/
structure SftpFileInfo where
  modified : PyDateTime
  created : Option PyDateTime

/-- The `file_filter` dictionary of the source endpoint as `_filter_files`
reads it: `present` is the truthiness test on the dictionary itself, `ftype`
the optional `'type'` key (line 146 compares `.get('type')` with `'all'`,
line 150 falls back to `'all'`), the remaining fields the `.get` lookups of
the individual branches with their defaults. -/
structure FilterCfg where
  present : Bool
  ftype : Option String
  pattern : String
  extensions : List String
  time_value : String
  time_type : String

/-- Oracle for the external interactions of `_filter_files`: whether the
timestamp-pass connection succeeds, the result of `datetime.strptime` on
`time_value` (`none` models a raised `ValueError`), the per-file FTP `MDTM`
modification time, and the per-file SFTP stat information. -/
structure FilterEnv where
  connectOk : Bool
  parsedTime : Option PyDateTime
  mdtmOf : String → Option PyDateTime
  sftpInfoOf : String → Option SftpFileInfo

/-- Numeric encoding of a datetime; comparisons of in-range datetimes agree
with Python's field-lexicographic `datetime` ordering. -/
def PyDateTime.code (t : PyDateTime) : Nat :=
  (((((t.year * 100 + t.month) * 100 + t.day) * 100 + t.hour) * 100 +
      t.minute) * 100 + t.second) * 1000000 + t.microsecond

/-- Boolean order on datetimes used by the time-window comparisons. -/
def dtLe (a b : PyDateTime) : Bool := a.code ≤ b.code

/-- Python's `str.lower()` for the ASCII configuration strings compared
here: character-wise lowercasing (agrees with `String.toLower`, stated
structurally so that it evaluates). -/
def pyLower (s : String) : String := String.mk (s.toList.map Char.toLower)

/-- Last dot-separated segment of a filename, lowercased:
`filename.split('.')[-1].lower()` (core.py 192). -/
def lastDotSeg (f : String) : String :=
  pyLower (String.mk ((f.toList.reverse.takeWhile (fun c => c != '.')).reverse))

/-- One step of the per-file loop of `_filter_files` (core.py 181-227):
whether `filename` is appended to `filtered_files`.  `useSftp` is
`self.source_use_sftp`; inside the loop the connection object is non-None
exactly when a timestamp pass was required, so the branch guards reduce to
the protocol flag.  In the time branches a failed `strptime` raises, is
caught by the per-file handler and the file is simply not appended; a file
whose timestamp is unavailable is likewise not appended. -/
def filter_keeps (cfg : FilterCfg) (useSftp : Bool) (env : FilterEnv)
    (filename : String) : Bool :=
  let ftype := cfg.ftype.getD "all"
  if ftype == "pattern" then
    rtoksSearch (globToRegex cfg.pattern.toList) filename.toList
  else if ftype == "extension" then
    let fext := if filename.toList.contains '.' then lastDotSeg filename else ""
    cfg.extensions.any (fun e => pyLower e == fext)
  else if ftype == "creation_time" || ftype == "modification_time" then
    match env.parsedTime with
    | none => false
    | some ft =>
      let fileTime : Option PyDateTime :=
        if useSftp then
          match env.sftpInfoOf filename with
          | none => none
          | some info =>
            if ftype == "modification_time" then some info.modified else info.created
        else
          if ftype == "modification_time" then env.mdtmOf filename else none
      match fileTime with
      | none => false
      | some t =>
        if cfg.time_type == "since" then dtLe ft t
        else if cfg.time_type == "before" then dtLe t ft
        else false
  else false

/-- Whether the loop issues an FTP `MDTM` lookup (`get_file_modification_time`)
for a file: only in the modification-time branch over plain FTP, and only
after `strptime` succeeded (core.py 216-218).  No creation-time retrieval
over FTP exists anywhere in the code. -/
def mdtmQueried (cfg : FilterCfg) (useSftp : Bool) (env : FilterEnv) : Bool :=
  (cfg.ftype.getD "all" == "modification_time") && !useSftp && env.parsedTime.isSome

/-- Translation of `_filter_files` (core.py 138-236).  The first early
return hands the list through when no filter is configured or its type is
`'all'`; a time-based filter first opens a connection whose failure raises
out of the function (`Except.error`); otherwise the loop keeps exactly the
files accepted by `filter_keeps`, in order.  The second component of the
result lists the files for which an FTP `MDTM` lookup was issued. -/
def filter_files (cfg : FilterCfg) (useSftp : Bool) (env : FilterEnv)
    (file_list : List String) : Except Unit (List String × List String) :=
  if !cfg.present || cfg.ftype == some "all" then .ok (file_list, [])
  else
    let ftype := cfg.ftype.getD "all"
    let needInfo := ftype == "creation_time" || ftype == "modification_time"
    if needInfo && !env.connectOk then .error ()
    else
      .ok (file_list.filter (filter_keeps cfg useSftp env),
        if mdtmQueried cfg useSftp env then file_list else [])

/-- FilterCfg for a configured pattern filter. -/
def patternCfg (pat : String) : FilterCfg :=
  { present := true, ftype := some "pattern", pattern := pat,
    extensions := [], time_value := "", time_type := "" }

/-- Configuration fields of `FTPTransfer` that `transfer_files` consults
(core.py `__init__`): the protocol choice of each side, the destination
`file_exists_strategy`, the source backup switch and backup directory, and
whether a `file_filter` dictionary was configured (its truthiness). -/
structure TConfig where
  sourceUseSftp : Bool
  destUseSftp : Bool
  strategy : String
  enableBackup : Bool
  backupDir : String
  filterPresent : Bool

/-- Remote operation issued for one source file during the per-file loop,
tagged with the source filename it was issued for. -/
inductive FileOp where
  | existsCheck (src : String)
  | download (src : String)
  | upload (src : String) (uploadName : String)
  | move (src : String) (landingName : String)
deriving DecidableEq, Repr

/-- Source filename an operation was issued for. -/
def FileOp.src : FileOp → String
  | .existsCheck s => s
  | .download s => s
  | .upload s _ => s
  | .move s _ => s

/-- Oracle describing the external world of one `transfer_files` run:
whether each connect and the listing succeed, the raw listing, the
destination existence check for each name (a boolean, never an exception,
cf. `file_exists`/`sftp_file_exists`), whether the per-file `cwd` into the
source directory succeeds (its failure is the `ftplib.error_perm` case of
core.py 566-570), whether the unguarded `cwd` into the destination directory
succeeds (core.py 585), per-file download, upload and move results, the
`datetime.now()` value seen when a file is renamed, and whether email
notification is enabled and whether an enabled send succeeds. -/
structure Env where
  sourceConnectOk : Bool
  listOk : Bool
  listResult : List String
  destConnectOk : Bool
  destExists : String → Bool
  cwdSourceOk : Bool
  destCwdOk : Bool
  downloadOk : String → Bool
  uploadOk : String → Bool
  moveOk : String → Bool
  nowFor : String → PyDateTime
  emailEnabled : Bool
  emailOk : Bool

/-- Run-scoped accounting of `FTPTransfer` plus bookkeeping for the model:
the buckets created in `__init__` (`found_files`, `success_files`,
`skipped_files`, the dicts `failed_files` and `renamed_files`, `errors`)
exactly as the code mutates them (the dicts are insertion-ordered
association lists), together with the number of `send_email_notification`
invocations, whether a destination connect was attempted, and the trace of
remote per-file operations. -/
structure RunState where
  found_files : List String
  success_files : List String
  skipped_files : List String
  failed_files : List (String × String)
  renamed_files : List (String × String)
  errors : List String
  emailCalls : Nat
  destConnectTried : Bool
  ops : List FileOp
deriving Repr

/-- Membership of a key in a Python-dict model. -/
def dictHasKey (k : String) (d : List (String × String)) : Bool :=
  d.any (fun kv => kv.1 == k)

/-- Lookup in a Python-dict model. -/
def dictGet (k : String) (d : List (String × String)) : Option String :=
  (d.find? (fun kv => kv.1 == k)).map (fun kv => kv.2)

/-- Assignment `d[k] = v` on a Python-dict model: overwrite in place when the
key is present, append otherwise. -/
def dictInsert (k v : String) (d : List (String × String)) :
    List (String × String) :=
  if dictHasKey k d then d.map (fun kv => if kv.1 == k then (k, v) else kv)
  else d ++ [(k, v)]

/-- Failure reasons recorded by the per-file loop.  The Python code uses
formatted Chinese messages (core.py 569, 576, 590, 609); only their identity
matters here, so they are modelled by fixed distinct strings. -/
def srcCwdFailMsg : String := "cannot cwd to source directory"

/-- Reason recorded when the download fails (core.py 576). -/
def downloadFailMsg : String := "download failed"

/-- Reason recorded when the upload fails (core.py 590). -/
def uploadFailMsg : String := "upload failed"

/-- Reason recorded when the move to the backup directory fails
(core.py 609). -/
def moveFailMsg : String := "move to backup directory failed"

/-- Translation of `send_email_notification` (notification.py 9-71): a no-op
when notifications are disabled; when enabled the send either succeeds or is
logged and RE-RAISED (the bare `raise` at line 71).  The boolean result
reports whether an exception was raised; every call bumps the invocation
counter. -/
def sendEmail (env : Env) (st : RunState) : RunState × Bool :=
  ({ st with emailCalls := st.emailCalls + 1 }, env.emailEnabled && !env.emailOk)

/-- One iteration of the per-file loop of `transfer_files` (core.py
520-623): destination existence check, collision resolution by
`file_exists_strategy` (`skip` / `overwrite` / `rename` / unknown defaulting
to rename), download, upload, optional move to the source backup directory,
and bucket recording.  The boolean result reports an exception escaping the
loop: the unguarded `dest_conn.cwd` of line 585 for a plain-FTP
destination. -/
def processFile (cfg : TConfig) (env : Env) (st : RunState) (f : String) :
    RunState × Bool :=
  let st := { st with ops := st.ops ++ [FileOp.existsCheck f] }
  let fileExists := env.destExists f
  let strategy := pyLower cfg.strategy
  if fileExists && strategy == "skip" then
    ({ st with skipped_files := st.skipped_files ++ [f] }, false)
  else
    let upDec : String × List (String × String) :=
      if fileExists then
        if strategy == "overwrite" then (f, st.renamed_files)
        else
          let n := generate_timestamped_filename (env.nowFor f) f
          (n, dictInsert f n st.renamed_files)
      else (f, st.renamed_files)
    let upload_filename := upDec.1
    let st := { st with renamed_files := upDec.2 }
    if !cfg.sourceUseSftp && !env.cwdSourceOk then
      ({ st with failed_files := dictInsert f srcCwdFailMsg st.failed_files }, false)
    else
      let st := { st with ops := st.ops ++ [FileOp.download f] }
      if !env.downloadOk f then
        ({ st with failed_files := dictInsert f downloadFailMsg st.failed_files }, false)
      else if !cfg.destUseSftp && !env.destCwdOk then (st, true)
      else
        let st := { st with ops := st.ops ++ [FileOp.upload f upload_filename] }
        if !env.uploadOk f then
          ({ st with failed_files := dictInsert f uploadFailMsg st.failed_files }, false)
        else
          let entry :=
            match dictGet f st.renamed_files with
            | some n => f ++ " -> " ++ n
            | none => f
          if cfg.enableBackup && cfg.backupDir != "" then
            let st := { st with ops := st.ops ++ [FileOp.move f upload_filename] }
            if env.moveOk f then
              ({ st with success_files := st.success_files ++ [entry] }, false)
            else
              ({ st with failed_files := dictInsert f moveFailMsg st.failed_files }, false)
          else
            ({ st with success_files := st.success_files ++ [entry] }, false)

/-- The per-file loop over the filtered list; stops early (with the
exception flag set) when an iteration aborts the loop. -/
def processAll (cfg : TConfig) (env : Env) : List String → RunState → RunState × Bool
  | [], st => (st, false)
  | f :: fs, st =>
    let r := processFile cfg env st f
    if r.2 then (r.1, true) else processAll cfg env fs r.1

/-- The post-filter candidate list of a run: `file_list` as of core.py 463.
The filter is consulted only when the raw listing is non-empty and a filter
is configured; `filt` stands for `self._filter_files`, whose possible
exception (a failed timestamp-pass connection) propagates. -/
def candidatesOf (cfg : TConfig) (filt : List String → Except Unit (List String))
    (env : Env) : Except Unit (List String) :=
  if env.listResult.length != 0 && cfg.filterPresent then filt env.listResult
  else .ok env.listResult

/-- Bucket state right after `FTPTransfer.__init__` (core.py 120-125). -/
def initState : RunState :=
  { found_files := [], success_files := [], skipped_files := [],
    failed_files := [], renamed_files := [], errors := [],
    emailCalls := 0, destConnectTried := false, ops := [] }

/-- Body of `transfer_files` inside the outermost try (core.py 417-640):
source connect (whose failure is handled locally: error entry, report,
return all-zero), listing (whose failure raises), filtering, the
empty-candidate early return, destination connect (failure: error entry,
report, return `(total, 0, 0, 0)`), the per-file loop, and the final report
followed by the tally return.  `Except.error` is an exception escaping to
the outermost handler, including a re-raised report failure. -/
def transferBody (cfg : TConfig) (filt : List String → Except Unit (List String))
    (env : Env) : RunState × Except Unit (Nat × Nat × Nat × Nat) :=
  let st := initState
  if !env.sourceConnectOk then
    let st := { st with errors := st.errors ++ ["connect to source failed"] }
    let r := sendEmail env st
    if r.2 then (r.1, .error ()) else (r.1, .ok (0, 0, 0, 0))
  else if !env.listOk then (st, .error ())
  else
    match candidatesOf cfg filt env with
    | .error _ => (st, .error ())
    | .ok file_list =>
      let total := file_list.length
      if total == 0 then
        let r := sendEmail env st
        if r.2 then (r.1, .error ()) else (r.1, .ok (0, 0, 0, 0))
      else
        let st := { st with destConnectTried := true }
        if !env.destConnectOk then
          let st := { st with errors := st.errors ++ ["connect to destination failed"] }
          let r := sendEmail env st
          if r.2 then (r.1, .error ()) else (r.1, .ok (total, 0, 0, 0))
        else
          let st := { st with renamed_files := [] }
          let r := processAll cfg env file_list st
          if r.2 then (r.1, .error ())
          else
            let st := r.1
            let r2 := sendEmail env st
            if r2.2 then (r2.1, .error ())
            else
              (r2.1, .ok (total, st.success_files.length,
                st.skipped_files.length, st.failed_files.length))

/-- Translation of `transfer_files` (core.py 411-651).  The outermost
`except Exception` turns any escaped exception into a run-level error entry,
prepares and sends the report once more and returns `(0, 0, 0, 0)`; a
failure of THAT send is not caught by anything and propagates to the caller
(`Except.error` in the second component). -/
def transfer_files (cfg : TConfig) (filt : List String → Except Unit (List String))
    (env : Env) : RunState × Except Unit (Nat × Nat × Nat × Nat) :=
  let b := transferBody cfg filt env
  match b.2 with
  | .ok t => (b.1, .ok t)
  | .error _ =>
    let st := { b.1 with errors := b.1.errors ++ ["error during transfer"] }
    let r := sendEmail env st
    if r.2 then (r.1, .error ()) else (r.1, .ok (0, 0, 0, 0))

/-- Tally total reported by `_prepare_email_content` (core.py 240):
`len(self.found_files)`. -/
def prepare_email_total (st : RunState) : Nat := st.found_files.length

/-- Collision resolution of core.py 530-554 as a pure per-file function: the
name the file will be uploaded under, or `none` when the skip strategy
suppresses the transfer. -/
def uploadNameOf (cfg : TConfig) (env : Env) (f : String) : Option String :=
  if env.destExists f then
    let strategy := pyLower cfg.strategy
    if strategy == "skip" then none
    else if strategy == "overwrite" then some f
    else some (generate_timestamped_filename (env.nowFor f) f)
  else some f

/-- The rename-mapping entry the loop records for a file, if any: only the
`rename` strategy and the unknown-strategy fallback record one, and only
when the file already exists on the destination. -/
def renamedNameOf (cfg : TConfig) (env : Env) (f : String) : Option String :=
  if env.destExists f && !(pyLower cfg.strategy == "skip") &&
      !(pyLower cfg.strategy == "overwrite") then
    some (generate_timestamped_filename (env.nowFor f) f)
  else none

/-- The string recorded in `success_files` for a successfully transferred
file: `"orig -> renamed"` when a rename occurred, the bare name
otherwise (core.py 603-607, 615-619). -/
def succEntryOf (cfg : TConfig) (env : Env) (f : String) : String :=
  match renamedNameOf cfg env f with
  | some n => f ++ " -> " ++ n
  | none => f

/-- Bucket a file ends in when its loop iteration runs to completion. -/
inductive Outcome where
  | succeeded (entry : String)
  | skip
  | fail (reason : String)
deriving DecidableEq, Repr

/-- Outcome of one file's iteration as a pure function of the oracle. -/
def fileOutcome (cfg : TConfig) (env : Env) (f : String) : Outcome :=
  match uploadNameOf cfg env f with
  | none => .skip
  | some _ =>
    if !cfg.sourceUseSftp && !env.cwdSourceOk then .fail srcCwdFailMsg
    else if !env.downloadOk f then .fail downloadFailMsg
    else if !env.uploadOk f then .fail uploadFailMsg
    else if cfg.enableBackup && cfg.backupDir != "" then
      if env.moveOk f then .succeeded (succEntryOf cfg env f)
      else .fail moveFailMsg
    else .succeeded (succEntryOf cfg env f)

/-- Whether a file's iteration ends in the success bucket. -/
def outSucc (cfg : TConfig) (env : Env) (f : String) : Bool :=
  match fileOutcome cfg env f with
  | .succeeded _ => true
  | _ => false

/-- Whether a file's iteration ends in the skipped bucket. -/
def outSkip (cfg : TConfig) (env : Env) (f : String) : Bool :=
  match fileOutcome cfg env f with
  | .skip => true
  | _ => false

/-- Whether a file's iteration ends in the failed bucket. -/
def outFail (cfg : TConfig) (env : Env) (f : String) : Bool :=
  match fileOutcome cfg env f with
  | .fail _ => true
  | _ => false

/-- The reason recorded for a failed file (irrelevant default otherwise). -/
def failReasonOf (cfg : TConfig) (env : Env) (f : String) : String :=
  match fileOutcome cfg env f with
  | .fail r => r
  | _ => ""

/-- Contribution of one file to `success_files`. -/
def succDelta (cfg : TConfig) (env : Env) (f : String) : List String :=
  if outSucc cfg env f then [succEntryOf cfg env f] else []

/-- Contribution of one file to `skipped_files`. -/
def skipDelta (cfg : TConfig) (env : Env) (f : String) : List String :=
  if outSkip cfg env f then [f] else []

/-- Contribution of one file to `failed_files`. -/
def failDelta (cfg : TConfig) (env : Env) (f : String) : List (String × String) :=
  if outFail cfg env f then [(f, failReasonOf cfg env f)] else []

/-- Contribution of one file to `renamed_files`. -/
def renDelta (cfg : TConfig) (env : Env) (f : String) : List (String × String) :=
  match renamedNameOf cfg env f with
  | some n => [(f, n)]
  | none => []

/-- The remote operations one file's iteration issues, in order. -/
def fileOps (cfg : TConfig) (env : Env) (f : String) : List FileOp :=
  match uploadNameOf cfg env f with
  | none => [.existsCheck f]
  | some up =>
    if !cfg.sourceUseSftp && !env.cwdSourceOk then [.existsCheck f]
    else if !env.downloadOk f then [.existsCheck f, .download f]
    else if !env.uploadOk f then [.existsCheck f, .download f, .upload f up]
    else if cfg.enableBackup && cfg.backupDir != "" then
      [.existsCheck f, .download f, .upload f up, .move f up]
    else [.existsCheck f, .download f, .upload f up]

/-- Concatenation of per-element contributions. -/
def collect (g : α → List β) : List α → List β
  | [] => []
  | a :: as => g a ++ collect g as

/-- Identity stand-in for `_filter_files` when no filter is configured (the
filter is then never consulted). -/
def noFilt : List String → Except Unit (List String) := fun l => .ok l

/-- Concrete configuration used by the closed computations below: SFTP on
both sides, rename strategy, backup disabled, no filter. -/
def baseCfg : TConfig :=
  { sourceUseSftp := true, destUseSftp := true, strategy := "rename",
    enableBackup := false, backupDir := "", filterPresent := false }

/-- Concrete oracle for a run in which everything succeeds: one listed file
`a.txt`, absent from the destination, transferring cleanly; email disabled. -/
def baseEnv : Env :=
  { sourceConnectOk := true, listOk := true, listResult := ["a.txt"],
    destConnectOk := true, destExists := fun _ => false, cwdSourceOk := true,
    destCwdOk := true, downloadOk := fun _ => true, uploadOk := fun _ => true,
    moveOk := fun _ => true, nowFor := fun _ => ⟨2024, 1, 2, 3, 4, 5, 0⟩,
    emailEnabled := false, emailOk := true }

/-- Oracle of `baseEnv` with notifications enabled and the SMTP send
failing. -/
def emailFailEnv : Env := { baseEnv with emailEnabled := true, emailOk := false }

/-- Oracle with the source connect failing and the enabled send failing. -/
def srcFailEmailFailEnv : Env :=
  { baseEnv with sourceConnectOk := false, emailEnabled := true, emailOk := false }

/-- Oracle with the source connect failing and notifications disabled. -/
def srcFailEnv : Env := { baseEnv with sourceConnectOk := false }

/-- Oracle of `baseEnv` with two listed files where the destination already
holds `b.txt` (used with the skip strategy). -/
def skipEnv : Env :=
  { baseEnv with
    listResult := ["a.txt", "b.txt"]
    destExists := fun f => f == "b.txt" }

/-- Configuration of `baseCfg` with the skip strategy. -/
def skipCfg : TConfig := { baseCfg with strategy := "skip" }

/-- Oracle with one listed file `r.csv` that already exists on the
destination (exercising the rename strategy). -/
def renameEnv : Env :=
  { baseEnv with
    listResult := ["r.csv"]
    destExists := fun _ => true }

/-- Filter oracle that never answers a timestamp query (irrelevant for the
pattern branch, which consults nothing). -/
def nullFilterEnv : FilterEnv :=
  { connectOk := true, parsedTime := none,
    mdtmOf := fun _ => none, sftpInfoOf := fun _ => none }

/-- Filter configuration with a creation-time rule over plain FTP. -/
def creationCfg : FilterCfg :=
  { present := true, ftype := some "creation_time", pattern := "",
    extensions := [], time_value := "2024-01-01", time_type := "since" }

/-- Final accounting state of a run whose source connect, listing and (when
candidates exist) destination connect all succeed and whose per-file loop
runs to completion — before any effect of a failing final notification. -/
def normalRunState (cfg : TConfig) (env : Env) (C : List String) : RunState :=
  { found_files := [], success_files := collect (succDelta cfg env) C,
    skipped_files := collect (skipDelta cfg env) C,
    failed_files := collect (failDelta cfg env) C,
    renamed_files := collect (renDelta cfg env) C,
    errors := [], emailCalls := 1, destConnectTried := C.length != 0,
    ops := collect (fileOps cfg env) C }

/-- C9: the existence checks never raise to their caller: `file_exists`
reports `True` exactly when all four FTP interactions succeed, so an absent
file (the `error_perm` answer to `size`) yields `False` and every other
fault (a failing `pwd` or `cwd`, or a non-`error_perm` fault of `size`) is
caught by the outer handler and normalized to `False`; `sftp_file_exists`
reports `True` exactly when `stat` succeeds, normalizing both
`FileNotFoundError` and every other fault to `False`.  Both functions are
total boolean functions of the oracle: no exception reaches the caller. -/
theorem c9_exists_normalized (e : FtpExistsEnv) (s : StatOutcome) :
    (file_exists e = true ↔
      (e.pwdOk = true ∧ e.cwdDirOk = true ∧
        e.sizeResult = SizeOutcome.ok ∧ e.cwdBackOk = true)) ∧
    (sftp_file_exists s = true ↔ s = StatOutcome.found) := by
  constructor
  · rcases e with ⟨p, c, sz, cb⟩
    cases p <;> cases c <;> cases sz <;> cases cb <;>
      simp [file_exists, file_exists_body]
  · cases s <;> simp [sftp_file_exists]

/-- C10: with a plain FTP (non-SFTP) source and a creation-time filter,
`_filter_files` returns the empty list for every input file list once the
timestamp-pass connection succeeds, and no modification-time lookup is ever
issued (the code has no creation-time retrieval over FTP at all, so every
file's timestamp is unavailable and the file is excluded). -/
theorem c10_ftp_creation_time_empty (cfg : FilterCfg) (env : FilterEnv)
    (files : List String) (hp : cfg.present = true)
    (ht : cfg.ftype = some "creation_time") (hc : env.connectOk = true) :
    filter_files cfg false env files = .ok ([], []) := by
  have hfilter : files.filter (filter_keeps cfg false env) = [] := by
    rw [List.filter_eq_nil_iff]
    intro f _
    unfold filter_keeps
    rw [ht]
    cases env.parsedTime <;> simp
  unfold filter_files
  rw [hp, ht, hc]
  simp only [Bool.not_true, Bool.false_or, mdtmQueried, ht]
  norm_num
  rw [if_neg (by decide), if_neg (fun h => absurd h.1 (by decide)), hfilter]

theorem globToRegex_cons (c : Char) (p : List Char) :
    globToRegex (c :: p) =
      (if c == '*' then RTok.dotStar else if c == '?' then RTok.dot else RTok.lit c)
        :: globToRegex p := rfl

theorem mem_suffixes (t s : List Char) : t ∈ suffixes s ↔ ∃ i, t = s.drop i := by
  induction s with
  | nil =>
    simp only [suffixes, List.mem_singleton, List.drop_nil]
    constructor
    · rintro rfl; exact ⟨0, rfl⟩
    · rintro ⟨i, rfl⟩; rfl
  | cons x xs ih =>
    simp only [suffixes, List.mem_cons, ih]
    constructor
    · rintro (rfl | ⟨i, rfl⟩)
      · exact ⟨0, rfl⟩
      · exact ⟨i + 1, rfl⟩
    · rintro ⟨i, rfl⟩
      cases i with
      | zero => left; rfl
      | succ j => right; exact ⟨j, rfl⟩

theorem globMatch_nil_iff (s : List Char) : globMatch [] s = s.isEmpty := rfl

theorem globMatch_star (ps s : List Char) :
    globMatch ('*' :: ps) s = (suffixes s).any (fun t => globMatch ps t) := rfl

theorem globMatch_cons_nil {c : Char} (ps : List Char) (hc : c ≠ '*') :
    globMatch (c :: ps) [] = false := by
  conv_lhs => unfold globMatch
  simp [beq_iff_eq, hc]

theorem globMatch_qm_cons (ps : List Char) (x : Char) (xs : List Char) :
    globMatch ('?' :: ps) (x :: xs) = globMatch ps xs := rfl

theorem globMatch_lit_cons {c : Char} (ps : List Char) (x : Char) (xs : List Char)
    (h1 : c ≠ '*') (h2 : c ≠ '?') :
    globMatch (c :: ps) (x :: xs) = (c == x && globMatch ps xs) := by
  conv_lhs => unfold globMatch
  simp [beq_iff_eq, h1, h2]

theorem pre_iff_take (p : List Char) : ∀ s : List Char,
    rtoksMatchPre (globToRegex p) s = true ↔
      ∃ n, globMatch p (s.take n) = true := by
  induction p with
  | nil =>
    intro s
    simp only [globToRegex, List.map_nil, rtoksMatchPre]
    constructor
    · intro _; exact ⟨0, rfl⟩
    · intro _; trivial
  | cons c ps ih =>
    intro s
    rw [globToRegex_cons]
    by_cases hstar : c = '*'
    · subst hstar
      rw [if_pos (by rfl)]
      have eL : rtoksMatchPre (RTok.dotStar :: globToRegex ps) s =
          (suffixes s).any (fun t => rtoksMatchPre (globToRegex ps) t) := rfl
      rw [eL, List.any_eq_true]
      constructor
      · rintro ⟨t, ht, hmatch⟩
        obtain ⟨i, rfl⟩ := (mem_suffixes t s).mp ht
        obtain ⟨n, hn⟩ := (ih _).mp hmatch
        refine ⟨i + n, ?_⟩
        rw [globMatch_star, List.any_eq_true]
        refine ⟨(s.drop i).take n, ?_, hn⟩
        rw [mem_suffixes]
        refine ⟨i, ?_⟩
        rw [List.drop_take]
        congr 1
        omega
      · rintro ⟨n, hn⟩
        rw [globMatch_star, List.any_eq_true] at hn
        obtain ⟨t, ht, hmatch⟩ := hn
        obtain ⟨i, rfl⟩ := (mem_suffixes _ _).mp ht
        refine ⟨s.drop i, (mem_suffixes _ _).mpr ⟨i, rfl⟩, ?_⟩
        exact (ih _).mpr ⟨n - i, by rw [← List.drop_take]; exact hmatch⟩
    · by_cases hq : c = '?'
      · subst hq
        rw [if_neg (by decide), if_pos (by rfl)]
        cases s with
        | nil =>
          constructor
          · intro h; exact absurd h (by simp [rtoksMatchPre])
          · rintro ⟨n, hn⟩
            rw [List.take_nil, globMatch_cons_nil ps (by decide)] at hn
            exact absurd hn (by simp)
        | cons x xs =>
          have eL : rtoksMatchPre (RTok.dot :: globToRegex ps) (x :: xs) =
              rtoksMatchPre (globToRegex ps) xs := rfl
          rw [eL, ih xs]
          constructor
          · rintro ⟨n, hn⟩
            refine ⟨n + 1, ?_⟩
            rw [List.take_succ_cons, globMatch_qm_cons]
            exact hn
          · rintro ⟨n, hn⟩
            cases n with
            | zero =>
              rw [List.take_zero, globMatch_cons_nil ps (by decide)] at hn
              exact absurd hn (by simp)
            | succ k =>
              rw [List.take_succ_cons, globMatch_qm_cons] at hn
              exact ⟨k, hn⟩
      · rw [if_neg (by simp [beq_iff_eq, hstar]), if_neg (by simp [beq_iff_eq, hq])]
        cases s with
        | nil =>
          constructor
          · intro h; exact absurd h (by simp [rtoksMatchPre])
          · rintro ⟨n, hn⟩
            rw [List.take_nil, globMatch_cons_nil ps hstar] at hn
            exact absurd hn (by simp)
        | cons x xs =>
          have eL : rtoksMatchPre (RTok.lit c :: globToRegex ps) (x :: xs) =
              (c == x && rtoksMatchPre (globToRegex ps) xs) := rfl
          rw [eL]
          constructor
          · intro h
            simp only [Bool.and_eq_true] at h
            obtain ⟨hcx, hrest⟩ := h
            obtain ⟨n, hn⟩ := (ih xs).mp hrest
            refine ⟨n + 1, ?_⟩
            rw [List.take_succ_cons, globMatch_lit_cons ps x _ hstar hq]
            simp [hcx, hn]
          · rintro ⟨n, hn⟩
            cases n with
            | zero =>
              rw [List.take_zero, globMatch_cons_nil ps hstar] at hn
              exact absurd hn (by simp)
            | succ k =>
              rw [List.take_succ_cons, globMatch_lit_cons ps x _ hstar hq] at hn
              simp only [Bool.and_eq_true] at hn
              obtain ⟨hcx, hrest⟩ := hn
              have := (ih xs).mpr ⟨k, hrest⟩
              simp [hcx, this]

theorem search_iff_drop_take (p s : List Char) :
    rtoksSearch (globToRegex p) s = true ↔
      ∃ i n, globMatch p ((s.drop i).take n) = true := by
  induction s with
  | nil =>
    rw [show rtoksSearch (globToRegex p) [] = rtoksMatchPre (globToRegex p) [] from rfl]
    rw [pre_iff_take]
    constructor
    · rintro ⟨n, h⟩; exact ⟨0, n, by simpa using h⟩
    · rintro ⟨i, n, h⟩; exact ⟨n, by simpa using h⟩
  | cons x xs ihs =>
    rw [show rtoksSearch (globToRegex p) (x :: xs) =
      (rtoksMatchPre (globToRegex p) (x :: xs) || rtoksSearch (globToRegex p) xs) from rfl]
    constructor
    · intro h
      simp only [Bool.or_eq_true] at h
      rcases h with h | h
      · obtain ⟨n, hn⟩ := (pre_iff_take p (x :: xs)).mp h
        exact ⟨0, n, by simpa using hn⟩
      · obtain ⟨i, n, hn⟩ := ihs.mp h
        exact ⟨i + 1, n, by simpa using hn⟩
    · rintro ⟨i, n, hn⟩
      cases i with
      | zero =>
        have := (pre_iff_take p (x :: xs)).mpr ⟨n, by simpa using hn⟩
        simp [this]
      | succ j =>
        have := ihs.mpr ⟨j, n, by simpa using hn⟩
        simp [this]

theorem search_iff_substring (p s : List Char) :
    rtoksSearch (globToRegex p) s = true ↔
      ∃ pre mid post, s = pre ++ mid ++ post ∧ globMatch p mid = true := by
  rw [search_iff_drop_take]
  constructor
  · rintro ⟨i, n, hn⟩
    refine ⟨s.take i, (s.drop i).take n, (s.drop i).drop n, ?_, hn⟩
    rw [List.append_assoc, List.take_append_drop, List.take_append_drop]
  · rintro ⟨pre, mid, post, hs, hmid⟩
    refine ⟨pre.length, mid.length, ?_⟩
    have h1 : s.drop pre.length = mid ++ post := by
      rw [hs, List.append_assoc, List.drop_left]
    rw [h1, List.take_left]
    exact hmid

theorem filter_files_pattern (pat : String) (useSftp : Bool) (env : FilterEnv)
    (files : List String) :
    filter_files (patternCfg pat) useSftp env files =
      .ok (files.filter (filter_keeps (patternCfg pat) useSftp env), []) := rfl

/-- C6 counterexample: with the glob `a.txt`, the filename `xa.txtz` is kept
by the code (the unanchored `re.search` finds the substring `a.txt`) even
though the glob does not match the name, refuting the claim that a filename
is kept if and only if the glob matches that name. -/
theorem c6_counterexample :
    filter_files (patternCfg "a.txt") false nullFilterEnv ["xa.txtz"] =
      .ok (["xa.txtz"], []) ∧
    globMatch "a.txt".toList "xa.txtz".toList = false :=
  ⟨rfl, by decide⟩

/-- C6 (amended): for every file list and glob pattern built from
alphanumerics, dots, `*`, `?`, underscore and hyphen, the pattern filter
keeps a filename if and only if the glob (`*` any run of characters, `?` one
character, a literal dot only a dot) matches SOME contiguous substring of
the name — the compiled pattern is applied with the unanchored `re.search`,
not a whole-name match. -/
theorem c6_pattern_substring (pat : String) (useSftp : Bool) (env : FilterEnv)
    (files : List String) (hp : pat.toList.all plainGlobChar = true) :
    ∃ kept, filter_files (patternCfg pat) useSftp env files = .ok (kept, []) ∧
      ∀ f, f ∈ kept ↔ (f ∈ files ∧ ∃ pre mid post,
        f.toList = pre ++ mid ++ post ∧ globMatch pat.toList mid = true) := by
  refine ⟨files.filter (filter_keeps (patternCfg pat) useSftp env),
    filter_files_pattern pat useSftp env files, ?_⟩
  intro f
  rw [List.mem_filter]
  have hk : filter_keeps (patternCfg pat) useSftp env f =
      rtoksSearch (globToRegex pat.toList) f.toList := rfl
  rw [hk, search_iff_substring]

/-- C6 witness: the amended statement at the concrete pattern `*.txt` and a
concrete two-file listing. -/
theorem c6_witness :
    ("*.txt".toList.all plainGlobChar = true) ∧
    (∃ kept, filter_files (patternCfg "*.txt") false nullFilterEnv
        ["a.txt", "b.log"] = .ok (kept, []) ∧
      ∀ f, f ∈ kept ↔ (f ∈ ["a.txt", "b.log"] ∧ ∃ pre mid post,
        f.toList = pre ++ mid ++ post ∧ globMatch "*.txt".toList mid = true)) :=
  ⟨by decide,
    c6_pattern_substring "*.txt" false nullFilterEnv ["a.txt", "b.log"] (by decide)⟩

theorem padDigits_length (w n : Nat) : (padDigits w n).length = w := by
  induction w generalizing n with
  | zero => rfl
  | succ w ih => simp [padDigits, ih]

theorem digitChar_inj {a b : Nat} (ha : a < 10) (hb : b < 10)
    (h : Nat.digitChar a = Nat.digitChar b) : a = b := by
  have key : ∀ x : Fin 10, ∀ y : Fin 10,
      Nat.digitChar x.val = Nat.digitChar y.val → x = y := by decide
  exact congrArg Fin.val (key ⟨a, ha⟩ ⟨b, hb⟩ h)

theorem padDigits_inj {w a b : Nat} (ha : a < 10 ^ w) (hb : b < 10 ^ w)
    (h : padDigits w a = padDigits w b) : a = b := by
  induction w generalizing a b with
  | zero =>
    have : a = 0 ∧ b = 0 := by constructor <;> omega
    omega
  | succ w ih =>
    unfold padDigits at h
    have hlen : (padDigits w (a / 10)).length = (padDigits w (b / 10)).length := by
      simp [padDigits_length]
    obtain ⟨hpre, hlast⟩ := List.append_inj h hlen
    have hmod : a % 10 = b % 10 := by
      have hc : Nat.digitChar (a % 10) = Nat.digitChar (b % 10) := by
        simpa using hlast
      exact digitChar_inj (Nat.mod_lt _ (by norm_num)) (Nat.mod_lt _ (by norm_num)) hc
    have hda : a / 10 < 10 ^ w := by
      rw [Nat.div_lt_iff_lt_mul (by norm_num)]
      calc a < 10 ^ (w + 1) := ha
        _ = 10 ^ w * 10 := by ring
    have hdb : b / 10 < 10 ^ w := by
      rw [Nat.div_lt_iff_lt_mul (by norm_num)]
      calc b < 10 ^ (w + 1) := hb
        _ = 10 ^ w * 10 := by ring
    have hdiv := ih hda hdb hpre
    omega

theorem padDigits_digit {w n : Nat} : ∀ c ∈ padDigits w n, c.isDigit = true := by
  induction w generalizing n with
  | zero => intro c hc; simp [padDigits] at hc
  | succ w ih =>
    intro c hc
    simp only [padDigits, List.mem_append, List.mem_singleton] at hc
    rcases hc with h | h
    · exact ih _ h
    · subst h
      have key : ∀ d : Fin 10, (Nat.digitChar d.val).isDigit = true := by decide
      exact key ⟨n % 10, Nat.mod_lt _ (by norm_num)⟩

theorem strftime14_length (t : PyDateTime) : (strftime14 t).length = 14 := by
  simp [strftime14, padDigits_length]

theorem strftime14_digit (t : PyDateTime) :
    ∀ c ∈ strftime14 t, c.isDigit = true := by
  intro c hc
  simp only [strftime14, List.mem_append] at hc
  rcases hc with ((((h | h) | h) | h) | h) | h <;> exact padDigits_digit _ h

theorem strftime14_inj {t1 t2 : PyDateTime} (h1 : t1.Valid) (h2 : t2.Valid)
    (h : strftime14 t1 = strftime14 t2) : secsKey t1 = secsKey t2 := by
  obtain ⟨hy1a, hy1, hmo1a, hmo1, hd1a, hd1, hh1, hmi1, hs1, -⟩ := h1
  obtain ⟨hy2a, hy2, hmo2a, hmo2, hd2a, hd2, hh2, hmi2, hs2, -⟩ := h2
  unfold strftime14 at h
  obtain ⟨h, hs⟩ := List.append_inj h (by simp [padDigits_length])
  obtain ⟨h, hmi⟩ := List.append_inj h (by simp [padDigits_length])
  obtain ⟨h, hh⟩ := List.append_inj h (by simp [padDigits_length])
  obtain ⟨h, hd⟩ := List.append_inj h (by simp [padDigits_length])
  obtain ⟨hy, hmo⟩ := List.append_inj h (by simp [padDigits_length])
  have e10 : (10 : Nat) ^ 4 = 10000 := by norm_num
  have e2 : (10 : Nat) ^ 2 = 100 := by norm_num
  have := padDigits_inj (a := t1.year) (b := t2.year) (by omega) (by omega) hy
  have := padDigits_inj (a := t1.month) (b := t2.month) (by omega) (by omega) hmo
  have := padDigits_inj (a := t1.day) (b := t2.day) (by omega) (by omega) hd
  have := padDigits_inj (a := t1.hour) (b := t2.hour) (by omega) (by omega) hh
  have := padDigits_inj (a := t1.minute) (b := t2.minute) (by omega) (by omega) hmi
  have := padDigits_inj (a := t1.second) (b := t2.second) (by omega) (by omega) hs
  simp_all [secsKey]

theorem splitext_append (cs : List Char) :
    (splitext cs).1 ++ (splitext cs).2 = cs := by
  unfold splitext
  cases h : lastDotIdx cs with
  | none => simp
  | some i =>
    by_cases ha : (cs.take i).any (fun c => c != '.') = true
    · simp [ha, List.take_append_drop]
    · simp [ha]

theorem gen_toList (t : PyDateTime) (f : String) :
    (generate_timestamped_filename t f).toList =
      (splitext f.toList).1 ++ '_' :: (strftime14 t ++ (splitext f.toList).2) := rfl

theorem gen_length (t : PyDateTime) (f : String) :
    (generate_timestamped_filename t f).toList.length = f.toList.length + 15 := by
  have hbe : (splitext f.toList).1.length + (splitext f.toList).2.length
      = f.toList.length := by
    have h := congrArg List.length (splitext_append f.toList)
    simpa [List.length_append] using h
  rw [gen_toList]
  simp only [List.length_append, List.length_cons, strftime14_length]
  omega

theorem gen_ne (t : PyDateTime) (f : String) :
    generate_timestamped_filename t f ≠ f := by
  intro h
  have h2 := congrArg (fun s => s.toList.length) h
  simp only [gen_length] at h2
  omega

theorem gen_inj_time {t1 t2 : PyDateTime} (f : String) (h1 : t1.Valid)
    (h2 : t2.Valid) (hne : secsKey t1 ≠ secsKey t2) :
    generate_timestamped_filename t1 f ≠ generate_timestamped_filename t2 f := by
  intro h
  apply hne
  apply strftime14_inj h1 h2
  have hl := congrArg String.toList h
  rw [gen_toList, gen_toList] at hl
  have hl2 := List.append_cancel_left hl
  have hl3 : strftime14 t1 ++ (splitext f.toList).2
      = strftime14 t2 ++ (splitext f.toList).2 := List.cons_injective hl2
  exact (List.append_inj hl3 (by simp [strftime14_length])).1

/-- C5 counterexample: two distinct instants (the same second, different
microseconds — exactly what two `datetime.now()` calls within one second
produce) yield the SAME timestamped name for `report.csv`, refuting the
claim that two resolutions at different instants always yield two distinct
names. -/
theorem c5_counterexample :
    (⟨2024, 5, 6, 7, 8, 9, 0⟩ : PyDateTime) ≠ ⟨2024, 5, 6, 7, 8, 9, 500000⟩ ∧
    generate_timestamped_filename ⟨2024, 5, 6, 7, 8, 9, 0⟩ "report.csv" =
      generate_timestamped_filename ⟨2024, 5, 6, 7, 8, 9, 500000⟩ "report.csv" :=
  ⟨by decide, by decide⟩

/-- C5 (amended): with strategy rename and an existing destination file, the
chosen name is the base name, an underscore, the 14-digit timestamp, then
the extension (`report_<14 digits>.csv` for `report.csv`); two resolutions
at instants whose second-resolution fields differ yield distinct names
(resolutions within the same second collide); and when the file does not
exist on the destination the original name is used regardless of
strategy. -/
theorem c5_rename_naming (cfg : TConfig) (env : Env) (f g : String)
    (t1 t2 : PyDateTime) (h1 : t1.Valid) (h2 : t2.Valid)
    (hne : secsKey t1 ≠ secsKey t2) (hg : env.destExists g = false) :
    (generate_timestamped_filename t1 "report.csv").toList =
        "report_".toList ++ strftime14 t1 ++ ".csv".toList ∧
    (strftime14 t1).length = 14 ∧
    (∀ c ∈ strftime14 t1, c.isDigit = true) ∧
    generate_timestamped_filename t1 f ≠ generate_timestamped_filename t2 f ∧
    uploadNameOf cfg env g = some g := by
  refine ⟨?_, strftime14_length t1, strftime14_digit t1,
    gen_inj_time f h1 h2 hne, ?_⟩
  · rw [gen_toList]
    have hsplit : splitext "report.csv".toList = ("report".toList, ".csv".toList) := by
      decide
    rw [hsplit]
    have hrep : ("report_".toList : List Char) = "report".toList ++ ['_'] := by decide
    rw [hrep]
    simp
  · simp [uploadNameOf, hg]

/-- C5 witness: the amended statement at concrete inputs (two instants one
second apart, a file absent from the destination). -/
theorem c5_witness :
    (⟨2024, 5, 6, 7, 8, 9, 0⟩ : PyDateTime).Valid ∧
    (⟨2024, 5, 6, 7, 8, 10, 0⟩ : PyDateTime).Valid ∧
    secsKey ⟨2024, 5, 6, 7, 8, 9, 0⟩ ≠ secsKey ⟨2024, 5, 6, 7, 8, 10, 0⟩ ∧
    baseEnv.destExists "x.txt" = false ∧
    ((generate_timestamped_filename ⟨2024, 5, 6, 7, 8, 9, 0⟩ "report.csv").toList =
        "report_".toList ++ strftime14 ⟨2024, 5, 6, 7, 8, 9, 0⟩ ++ ".csv".toList ∧
      (strftime14 (⟨2024, 5, 6, 7, 8, 9, 0⟩ : PyDateTime)).length = 14 ∧
      (∀ c ∈ strftime14 (⟨2024, 5, 6, 7, 8, 9, 0⟩ : PyDateTime), c.isDigit = true) ∧
      generate_timestamped_filename ⟨2024, 5, 6, 7, 8, 9, 0⟩ "report.csv" ≠
        generate_timestamped_filename ⟨2024, 5, 6, 7, 8, 10, 0⟩ "report.csv" ∧
      uploadNameOf baseCfg baseEnv "x.txt" = some "x.txt") :=
  ⟨by decide, by decide, by decide, rfl,
    c5_rename_naming baseCfg baseEnv "report.csv" "x.txt" _ _
      (by decide) (by decide) (by decide) rfl⟩

/-- C10 witness: a concrete creation-time configuration over FTP drops both
files of a concrete listing. -/
theorem c10_witness :
    creationCfg.present = true ∧ creationCfg.ftype = some "creation_time" ∧
      nullFilterEnv.connectOk = true ∧
      filter_files creationCfg false nullFilterEnv ["a.txt", "b.bin"] = .ok ([], []) :=
  ⟨rfl, rfl, rfl, c10_ftp_creation_time_empty creationCfg nullFilterEnv
    ["a.txt", "b.bin"] rfl rfl rfl⟩

theorem dictHasKey_nil (k : String) : dictHasKey k [] = false := rfl

theorem dictHasKey_append (k : String) (d1 d2 : List (String × String)) :
    dictHasKey k (d1 ++ d2) = (dictHasKey k d1 || dictHasKey k d2) := by
  simp [dictHasKey, List.any_append]

theorem dictInsert_notMem {k : String} {d : List (String × String)} (v : String)
    (h : dictHasKey k d = false) : dictInsert k v d = d ++ [(k, v)] := by
  unfold dictInsert
  rw [h]
  simp

theorem dictGet_none_of_notMem {k : String} {d : List (String × String)}
    (h : dictHasKey k d = false) : dictGet k d = none := by
  induction d with
  | nil => rfl
  | cons kv d ih =>
    simp only [dictHasKey, List.any_cons, Bool.or_eq_false_iff] at h
    obtain ⟨h1, h2⟩ := h
    simp only [dictGet, List.find?_cons, h1]
    exact ih h2

theorem dictGet_append_single {k : String} {d : List (String × String)} (v : String)
    (h : dictHasKey k d = false) : dictGet k (d ++ [(k, v)]) = some v := by
  induction d with
  | nil => simp [dictGet]
  | cons kv d ih =>
    simp only [dictHasKey, List.any_cons, Bool.or_eq_false_iff] at h
    obtain ⟨h1, h2⟩ := h
    simp only [dictGet, List.cons_append, List.find?_cons, h1]
    exact ih h2

theorem processFile_spec (cfg : TConfig) (env : Env)
    (hna : cfg.destUseSftp = true ∨ env.destCwdOk = true)
    (st : RunState) (f : String)
    (hr : dictHasKey f st.renamed_files = false)
    (hf : dictHasKey f st.failed_files = false) :
    processFile cfg env st f =
      ({ st with
          success_files := st.success_files ++ succDelta cfg env f
          skipped_files := st.skipped_files ++ skipDelta cfg env f
          failed_files := st.failed_files ++ failDelta cfg env f
          renamed_files := st.renamed_files ++ renDelta cfg env f
          ops := st.ops ++ fileOps cfg env f }, false) := by
  have hcwd2 : (!cfg.destUseSftp && !env.destCwdOk) = false := by
    rcases hna with h | h <;> simp [h]
  by_cases hex : env.destExists f = true <;>
    by_cases hsk : (pyLower cfg.strategy == "skip") = true <;>
      by_cases hov : (pyLower cfg.strategy == "overwrite") = true <;>
        by_cases hcw : (!cfg.sourceUseSftp && !env.cwdSourceOk) = true <;>
          by_cases hdl : env.downloadOk f = true <;>
            by_cases hup : env.uploadOk f = true <;>
              by_cases hbk : (cfg.enableBackup && cfg.backupDir != "") = true <;>
                by_cases hmv : env.moveOk f = true <;>
                  simp [processFile, succDelta, skipDelta, failDelta, renDelta,
                    fileOps, outSucc, outSkip, outFail, failReasonOf, fileOutcome,
                    succEntryOf, uploadNameOf, renamedNameOf, hex, hsk, hov, hcw,
                    hdl, hup, hbk, hmv, hcwd2, hr, hf, dictInsert_notMem,
                    dictGet_append_single, dictGet_none_of_notMem]

theorem hasKey_renDelta_ne (cfg : TConfig) (env : Env) {g f : String} (h : g ≠ f) :
    dictHasKey g (renDelta cfg env f) = false := by
  unfold renDelta
  cases renamedNameOf cfg env f with
  | none => rfl
  | some n => simp [dictHasKey, beq_iff_eq, Ne.symm h]

theorem hasKey_failDelta_ne (cfg : TConfig) (env : Env) {g f : String} (h : g ≠ f) :
    dictHasKey g (failDelta cfg env f) = false := by
  unfold failDelta
  by_cases hb : outFail cfg env f = true <;>
    simp [hb, dictHasKey, beq_iff_eq, Ne.symm h]

theorem processAll_spec (cfg : TConfig) (env : Env)
    (hna : cfg.destUseSftp = true ∨ env.destCwdOk = true) :
    ∀ (fs : List String) (st : RunState), fs.Nodup →
      (∀ f ∈ fs, dictHasKey f st.renamed_files = false) →
      (∀ f ∈ fs, dictHasKey f st.failed_files = false) →
      processAll cfg env fs st =
        ({ st with
            success_files := st.success_files ++ collect (succDelta cfg env) fs
            skipped_files := st.skipped_files ++ collect (skipDelta cfg env) fs
            failed_files := st.failed_files ++ collect (failDelta cfg env) fs
            renamed_files := st.renamed_files ++ collect (renDelta cfg env) fs
            ops := st.ops ++ collect (fileOps cfg env) fs }, false) := by
  intro fs
  induction fs with
  | nil =>
    intro st _ _ _
    simp [processAll, collect]
  | cons f fs ih =>
    intro st hnd hr hf
    have hnotmem : f ∉ fs := (List.nodup_cons.mp hnd).1
    rw [processAll,
      processFile_spec cfg env hna st f (hr f (by simp)) (hf f (by simp))]
    simp only [if_neg (by simp : ¬(false = true))]
    rw [ih _ (List.nodup_cons.mp hnd).2 ?_ ?_]
    · simp [collect, List.append_assoc]
    · intro g hg
      rw [dictHasKey_append, (hr g (by simp [hg])),
        hasKey_renDelta_ne cfg env (fun hgf : g = f => hnotmem (hgf ▸ hg))]
      rfl
    · intro g hg
      rw [dictHasKey_append, (hf g (by simp [hg])),
        hasKey_failDelta_ne cfg env (fun hgf : g = f => hnotmem (hgf ▸ hg))]
      rfl

theorem collect_filter_map {α β : Type} (p : α → Bool) (g : α → β) :
    ∀ l : List α,
      collect (fun a => if p a then [g a] else []) l = (l.filter p).map g := by
  intro l
  induction l with
  | nil => rfl
  | cons a l ih =>
    simp only [collect, List.filter_cons]
    by_cases h : p a = true <;> simp [h, ih]

theorem collect_counts (cfg : TConfig) (env : Env) : ∀ fs : List String,
    fs.length = (collect (succDelta cfg env) fs).length +
      (collect (skipDelta cfg env) fs).length +
      (collect (failDelta cfg env) fs).length := by
  intro fs
  induction fs with
  | nil => rfl
  | cons f fs ih =>
    simp only [collect, List.length_append, List.length_cons]
    have h3 : (succDelta cfg env f).length + (skipDelta cfg env f).length +
        (failDelta cfg env f).length = 1 := by
      unfold succDelta skipDelta failDelta outSucc outSkip outFail
      cases fileOutcome cfg env f <;> simp
    omega

theorem outcome_trichotomy (cfg : TConfig) (env : Env) (f : String) :
    (outSucc cfg env f).toNat + (outSkip cfg env f).toNat +
      (outFail cfg env f).toNat = 1 := by
  unfold outSucc outSkip outFail
  cases fileOutcome cfg env f <;> simp

theorem hasKey_collect_renDelta (cfg : TConfig) (env : Env) (k : String) :
    ∀ fs : List String,
      dictHasKey k (collect (renDelta cfg env) fs) = true ↔
        (k ∈ fs ∧ renamedNameOf cfg env k ≠ none) := by
  intro fs
  induction fs with
  | nil => simp [collect, dictHasKey]
  | cons f fs ih =>
    rw [collect, dictHasKey_append, Bool.or_eq_true, ih]
    constructor
    · rintro (h | ⟨hm, hrn⟩)
      · by_cases hkf : k = f
        · subst hkf
          refine ⟨by simp, ?_⟩
          unfold renDelta at h
          rcases hrn2 : renamedNameOf cfg env k with _ | n
          · rw [hrn2] at h; simp [dictHasKey] at h
          · simp [hrn2]
        · rw [hasKey_renDelta_ne cfg env hkf] at h
          simp at h
      · exact ⟨by simp [hm], hrn⟩
    · rintro ⟨hm, hrn⟩
      rcases List.mem_cons.mp hm with rfl | hm2
      · left
        unfold renDelta
        rcases hrn2 : renamedNameOf cfg env k with _ | n
        · exact absurd hrn2 hrn
        · simp [dictHasKey]
      · right; exact ⟨hm2, hrn⟩

theorem renamed_iff_upload_ne (cfg : TConfig) (env : Env) (f : String) :
    renamedNameOf cfg env f ≠ none ↔
      ∃ u, uploadNameOf cfg env f = some u ∧ u ≠ f := by
  unfold renamedNameOf uploadNameOf
  by_cases hex : env.destExists f = true
  · by_cases hsk : (pyLower cfg.strategy == "skip") = true
    · simp [hex, hsk]
    · by_cases hov : (pyLower cfg.strategy == "overwrite") = true
      · simp [hex, hsk, hov]
      · simp [hex, hsk, hov, gen_ne]
  · simp [hex]

theorem fileOps_src (cfg : TConfig) (env : Env) (g : String) :
    (fileOps cfg env g).all (fun op => op.src == g) = true := by
  unfold fileOps
  rcases uploadNameOf cfg env g with _ | u
  · simp [FileOp.src]
  · by_cases h1 : (!cfg.sourceUseSftp && !env.cwdSourceOk) = true <;>
      by_cases h2 : env.downloadOk g = true <;>
        by_cases h3 : env.uploadOk g = true <;>
          by_cases h4 : (cfg.enableBackup && cfg.backupDir != "") = true <;>
            simp [h1, h2, h3, h4, FileOp.src]

theorem mem_collect {α β : Type} (g : α → List β) (b : β) :
    ∀ l : List α, b ∈ collect g l ↔ ∃ a ∈ l, b ∈ g a := by
  intro l
  induction l with
  | nil => simp [collect]
  | cons a l ih => simp [collect, ih]

theorem body_normal (cfg : TConfig)
    (filt : List String → Except Unit (List String)) (env : Env) (C : List String)
    (h1 : env.sourceConnectOk = true) (h2 : env.listOk = true)
    (hcand : candidatesOf cfg filt env = .ok C) (h3 : env.destConnectOk = true)
    (hna : cfg.destUseSftp = true ∨ env.destCwdOk = true) (hnd : C.Nodup) :
    transferBody cfg filt env =
      (normalRunState cfg env C,
        if env.emailEnabled && !env.emailOk then .error ()
        else .ok (C.length, (collect (succDelta cfg env) C).length,
          (collect (skipDelta cfg env) C).length,
          (collect (failDelta cfg env) C).length)) := by
  by_cases hC : C.length = 0
  · have hCnil : C = [] := List.length_eq_zero.mp hC
    subst hCnil
    by_cases he : (env.emailEnabled && !env.emailOk) = true <;>
      simp [transferBody, h1, h2, hcand, he, sendEmail, initState,
        normalRunState, collect]
  · have hall := processAll_spec cfg env hna C
      { initState with destConnectTried := true, renamed_files := [] }
      hnd (fun f _ => rfl) (fun f _ => rfl)
    simp only [initState] at hall
    by_cases he : (env.emailEnabled && !env.emailOk) = true <;>
      simp [transferBody, h1, h2, hcand, h3, hC, hall, he, sendEmail, initState,
        normalRunState]

theorem run_characterization (cfg : TConfig)
    (filt : List String → Except Unit (List String)) (env : Env) (C : List String)
    (h1 : env.sourceConnectOk = true) (h2 : env.listOk = true)
    (hcand : candidatesOf cfg filt env = .ok C) (h3 : env.destConnectOk = true)
    (hna : cfg.destUseSftp = true ∨ env.destCwdOk = true) (hnd : C.Nodup) :
    ((transfer_files cfg filt env).1.success_files = collect (succDelta cfg env) C ∧
      (transfer_files cfg filt env).1.skipped_files = collect (skipDelta cfg env) C ∧
      (transfer_files cfg filt env).1.failed_files = collect (failDelta cfg env) C ∧
      (transfer_files cfg filt env).1.renamed_files = collect (renDelta cfg env) C ∧
      (transfer_files cfg filt env).1.ops = collect (fileOps cfg env) C ∧
      (transfer_files cfg filt env).1.found_files = []) ∧
    (∀ t, (transfer_files cfg filt env).2 = .ok t →
      t = (C.length, (collect (succDelta cfg env) C).length,
        (collect (skipDelta cfg env) C).length,
        (collect (failDelta cfg env) C).length)) ∧
    ((env.emailEnabled = false ∨ env.emailOk = true) →
      (transfer_files cfg filt env).2 = .ok (C.length,
        (collect (succDelta cfg env) C).length,
        (collect (skipDelta cfg env) C).length,
        (collect (failDelta cfg env) C).length)) := by
  have hb := body_normal cfg filt env C h1 h2 hcand h3 hna hnd
  by_cases he : (env.emailEnabled && !env.emailOk) = true
  · rw [if_pos he] at hb
    have hrun : transfer_files cfg filt env =
        ({ normalRunState cfg env C with
            errors := (normalRunState cfg env C).errors ++ ["error during transfer"],
            emailCalls := (normalRunState cfg env C).emailCalls + 1 }, .error ()) := by
      simp only [transfer_files]
      rw [hb]
      simp [sendEmail, he]
    rw [hrun]
    refine ⟨⟨rfl, rfl, rfl, rfl, rfl, rfl⟩, ?_, ?_⟩
    · intro t ht
      exact absurd ht (by simp)
    · rintro (h | h) <;> simp [h] at he
  · rw [if_neg he] at hb
    have hrun : transfer_files cfg filt env =
        (normalRunState cfg env C, .ok (C.length,
          (collect (succDelta cfg env) C).length,
          (collect (skipDelta cfg env) C).length,
          (collect (failDelta cfg env) C).length)) := by
      simp only [transfer_files]
      rw [hb]
    rw [hrun]
    refine ⟨⟨rfl, rfl, rfl, rfl, rfl, rfl⟩, ?_, fun _ => rfl⟩
    intro t ht
    exact (Except.ok.inj ht).symm

/-- C1 (code bug): a run whose transfers all succeed (one file `a.txt`
transferred) but whose enabled email notification fails does NOT return a
4-tuple: `send_email_notification` logs the failure and re-raises, the
outermost handler of `transfer_files` catches it but sends the report a
second time, and that second failure propagates to the caller.  The model
evaluates the code at this failing input: the success bucket shows the
completed transfer, the reporter was invoked twice, and the run ends in a
propagated exception instead of its tuple. -/
theorem c1_email_failure_propagates :
    (transfer_files baseCfg noFilt emailFailEnv).1.success_files = ["a.txt"] ∧
    (transfer_files baseCfg noFilt emailFailEnv).1.emailCalls = 2 ∧
    (transfer_files baseCfg noFilt emailFailEnv).2 = .error () :=
  ⟨rfl, rfl, rfl⟩

/-- C3 (code bug): `found_files` is never populated by `transfer_files`, so
at the end of a run with one post-filter candidate the returned tuple's
first element is 1 while `found_files` is empty and the total that
`_prepare_email_content` reports to the emailed tally
(`len(self.found_files)`) is 0. -/
theorem c3_found_never_populated :
    candidatesOf baseCfg noFilt baseEnv = .ok ["a.txt"] ∧
    (transfer_files baseCfg noFilt baseEnv).2 = .ok (1, 1, 0, 0) ∧
    (transfer_files baseCfg noFilt baseEnv).1.found_files = [] ∧
    prepare_email_total (transfer_files baseCfg noFilt baseEnv).1 = 0 :=
  ⟨rfl, rfl, rfl, rfl⟩

/-- C2: for every run in which the source connect, the listing (and filter)
and the destination connect succeed and the per-file loop completes (the
destination `cwd` never aborts it) over duplicate-free candidates, the
buckets partition the post-filter candidate set: the success bucket consists
exactly of the successful candidates (under their recorded entry strings),
the skipped bucket exactly of the skipped candidates, the failed bucket
exactly of the failed candidates with their reasons, each candidate has
exactly one outcome, and whatever 4-tuple the run returns is the tally
`(totalFound, succeeded, skipped, failed)` with
`totalFound = succeeded + skipped + failed`. -/
theorem c2_bucket_partition (cfg : TConfig)
    (filt : List String → Except Unit (List String)) (env : Env) (C : List String)
    (h1 : env.sourceConnectOk = true) (h2 : env.listOk = true)
    (hcand : candidatesOf cfg filt env = .ok C) (h3 : env.destConnectOk = true)
    (hna : cfg.destUseSftp = true ∨ env.destCwdOk = true) (hnd : C.Nodup) :
    (transfer_files cfg filt env).1.success_files =
      (C.filter (outSucc cfg env)).map (succEntryOf cfg env) ∧
    (transfer_files cfg filt env).1.skipped_files = C.filter (outSkip cfg env) ∧
    (transfer_files cfg filt env).1.failed_files =
      (C.filter (outFail cfg env)).map (fun f => (f, failReasonOf cfg env f)) ∧
    (∀ f ∈ C, (outSucc cfg env f).toNat + (outSkip cfg env f).toNat +
      (outFail cfg env f).toNat = 1) ∧
    (∀ t, (transfer_files cfg filt env).2 = .ok t →
      t = (C.length, (transfer_files cfg filt env).1.success_files.length,
        (transfer_files cfg filt env).1.skipped_files.length,
        (transfer_files cfg filt env).1.failed_files.length) ∧
      C.length = (transfer_files cfg filt env).1.success_files.length +
        (transfer_files cfg filt env).1.skipped_files.length +
        (transfer_files cfg filt env).1.failed_files.length) := by
  obtain ⟨⟨hs, hk, hf2, hrn, hops, hfd⟩, hok, hgood⟩ :=
    run_characterization cfg filt env C h1 h2 hcand h3 hna hnd
  have es : collect (succDelta cfg env) C =
      (C.filter (outSucc cfg env)).map (succEntryOf cfg env) :=
    collect_filter_map (outSucc cfg env) (succEntryOf cfg env) C
  have ek : collect (skipDelta cfg env) C = C.filter (outSkip cfg env) := by
    have h := collect_filter_map (outSkip cfg env) (fun f => f) C
    simpa using h
  have ef : collect (failDelta cfg env) C =
      (C.filter (outFail cfg env)).map (fun f => (f, failReasonOf cfg env f)) :=
    collect_filter_map (outFail cfg env) (fun f => (f, failReasonOf cfg env f)) C
  refine ⟨hs.trans es, hk.trans ek, hf2.trans ef,
    fun f _ => outcome_trichotomy cfg env f, ?_⟩
  intro t ht
  have hteq := hok t ht
  subst hteq
  constructor
  · rw [hs, hk, hf2]
  · rw [hs, hk, hf2]
    exact collect_counts cfg env C

/-- C2 witness: the partition statement evaluated on a concrete successful
single-file run. -/
theorem c2_witness :
    baseEnv.sourceConnectOk = true ∧ baseEnv.listOk = true ∧
    candidatesOf baseCfg noFilt baseEnv = .ok ["a.txt"] ∧
    baseEnv.destConnectOk = true ∧
    (baseCfg.destUseSftp = true ∨ baseEnv.destCwdOk = true) ∧
    (["a.txt"] : List String).Nodup ∧
    ((transfer_files baseCfg noFilt baseEnv).1.success_files =
      ((["a.txt"] : List String).filter (outSucc baseCfg baseEnv)).map
        (succEntryOf baseCfg baseEnv) ∧
    (transfer_files baseCfg noFilt baseEnv).1.skipped_files =
      (["a.txt"] : List String).filter (outSkip baseCfg baseEnv) ∧
    (transfer_files baseCfg noFilt baseEnv).1.failed_files =
      ((["a.txt"] : List String).filter (outFail baseCfg baseEnv)).map
        (fun f => (f, failReasonOf baseCfg baseEnv f)) ∧
    (∀ f ∈ (["a.txt"] : List String),
      (outSucc baseCfg baseEnv f).toNat + (outSkip baseCfg baseEnv f).toNat +
        (outFail baseCfg baseEnv f).toNat = 1) ∧
    (∀ t, (transfer_files baseCfg noFilt baseEnv).2 = .ok t →
      t = ((["a.txt"] : List String).length,
        (transfer_files baseCfg noFilt baseEnv).1.success_files.length,
        (transfer_files baseCfg noFilt baseEnv).1.skipped_files.length,
        (transfer_files baseCfg noFilt baseEnv).1.failed_files.length) ∧
      (["a.txt"] : List String).length =
        (transfer_files baseCfg noFilt baseEnv).1.success_files.length +
        (transfer_files baseCfg noFilt baseEnv).1.skipped_files.length +
        (transfer_files baseCfg noFilt baseEnv).1.failed_files.length)) :=
  ⟨rfl, rfl, rfl, rfl, Or.inl rfl, by decide,
    c2_bucket_partition baseCfg noFilt baseEnv ["a.txt"] rfl rfl rfl rfl
      (Or.inl rfl) (by decide)⟩

/-- C4 counterexample: when the source connect fails AND the enabled email
notification fails, `transfer_files` does not return `(0, 0, 0, 0)` — the
notification failure propagates as an exception — and the reporter is
invoked twice rather than exactly once (the destination is still never
attempted). -/
theorem c4_counterexample :
    (transfer_files baseCfg noFilt srcFailEmailFailEnv).2 = .error () ∧
    (transfer_files baseCfg noFilt srcFailEmailFailEnv).1.emailCalls = 2 ∧
    (transfer_files baseCfg noFilt srcFailEmailFailEnv).1.destConnectTried = false :=
  ⟨rfl, rfl, rfl⟩

/-- C4 (amended): if connecting to the source server fails, no destination
connection is ever attempted; and provided the email notification does not
itself fail, `transfer_files` returns `(0, 0, 0, 0)` and the reporter is
invoked exactly once (when the notification fails it is invoked a second
time from the outermost handler and the failure propagates, cf. the
counterexample). -/
theorem c4_source_fail_short_circuit (cfg : TConfig)
    (filt : List String → Except Unit (List String)) (env : Env)
    (h : env.sourceConnectOk = false) :
    (transfer_files cfg filt env).1.destConnectTried = false ∧
    ((env.emailEnabled = false ∨ env.emailOk = true) →
      (transfer_files cfg filt env).2 = .ok (0, 0, 0, 0) ∧
      (transfer_files cfg filt env).1.emailCalls = 1) := by
  by_cases he : (env.emailEnabled && !env.emailOk) = true
  · constructor
    · simp [transfer_files, transferBody, h, he, sendEmail, initState]
    · rintro (h' | h') <;> simp [h'] at he
  · constructor
    · simp [transfer_files, transferBody, h, he, sendEmail, initState]
    · intro _
      constructor <;> simp [transfer_files, transferBody, h, he, sendEmail, initState]

/-- C4 witness: the amended statement on a concrete source-connect failure
with notifications disabled. -/
theorem c4_witness :
    srcFailEnv.sourceConnectOk = false ∧
    ((transfer_files baseCfg noFilt srcFailEnv).1.destConnectTried = false ∧
      ((srcFailEnv.emailEnabled = false ∨ srcFailEnv.emailOk = true) →
        (transfer_files baseCfg noFilt srcFailEnv).2 = .ok (0, 0, 0, 0) ∧
        (transfer_files baseCfg noFilt srcFailEnv).1.emailCalls = 1)) :=
  ⟨rfl, c4_source_fail_short_circuit baseCfg noFilt srcFailEnv rfl⟩

/-- C7: at the end of every run that reaches the per-file loop (both
connects and the listing succeed) and completes it over duplicate-free
candidates, a filename has an entry in `renamed_files` if and only if it is
a candidate whose resolved destination upload name differs from its source
name (the skip strategy yields no upload name, overwrite and
no-collision keep the original name, and the timestamped rename always
differs from the original). -/
theorem c7_renamed_iff (cfg : TConfig)
    (filt : List String → Except Unit (List String)) (env : Env) (C : List String)
    (h1 : env.sourceConnectOk = true) (h2 : env.listOk = true)
    (hcand : candidatesOf cfg filt env = .ok C) (h3 : env.destConnectOk = true)
    (hna : cfg.destUseSftp = true ∨ env.destCwdOk = true) (hnd : C.Nodup)
    (f : String) :
    dictHasKey f (transfer_files cfg filt env).1.renamed_files = true ↔
      (f ∈ C ∧ ∃ u, uploadNameOf cfg env f = some u ∧ u ≠ f) := by
  obtain ⟨⟨-, -, -, hrn, -, -⟩, -, -⟩ :=
    run_characterization cfg filt env C h1 h2 hcand h3 hna hnd
  rw [hrn, hasKey_collect_renDelta, renamed_iff_upload_ne]

/-- C7 witness: a concrete run whose single candidate `r.csv` collides on
the destination under the rename strategy. -/
theorem c7_witness :
    renameEnv.sourceConnectOk = true ∧ renameEnv.listOk = true ∧
    candidatesOf baseCfg noFilt renameEnv = .ok ["r.csv"] ∧
    renameEnv.destConnectOk = true ∧
    (baseCfg.destUseSftp = true ∨ renameEnv.destCwdOk = true) ∧
    (["r.csv"] : List String).Nodup ∧
    (dictHasKey "r.csv" (transfer_files baseCfg noFilt renameEnv).1.renamed_files
        = true ↔
      ("r.csv" ∈ (["r.csv"] : List String) ∧
        ∃ u, uploadNameOf baseCfg renameEnv "r.csv" = some u ∧ u ≠ "r.csv")) :=
  ⟨rfl, rfl, rfl, rfl, Or.inl rfl, by decide,
    c7_renamed_iff baseCfg noFilt renameEnv ["r.csv"] rfl rfl rfl rfl
      (Or.inl rfl) (by decide) "r.csv"⟩

/-- C8: with the skip strategy and a candidate that already exists on the
destination, in every run that reaches and completes the per-file loop over
duplicate-free candidates, that file's name is recorded in the skipped
bucket and the only remote operation issued for it is the existence check —
no download, upload or move. -/
theorem c8_skip_no_transfer (cfg : TConfig)
    (filt : List String → Except Unit (List String)) (env : Env) (C : List String)
    (h1 : env.sourceConnectOk = true) (h2 : env.listOk = true)
    (hcand : candidatesOf cfg filt env = .ok C) (h3 : env.destConnectOk = true)
    (hna : cfg.destUseSftp = true ∨ env.destCwdOk = true) (hnd : C.Nodup)
    (f : String) (hm : f ∈ C) (hsk : pyLower cfg.strategy = "skip")
    (hex : env.destExists f = true) :
    f ∈ (transfer_files cfg filt env).1.skipped_files ∧
    ∀ op ∈ (transfer_files cfg filt env).1.ops, op.src = f →
      op = FileOp.existsCheck f := by
  obtain ⟨⟨-, hk, -, -, hops, -⟩, -, -⟩ :=
    run_characterization cfg filt env C h1 h2 hcand h3 hna hnd
  have hupload : uploadNameOf cfg env f = none := by
    unfold uploadNameOf
    simp [hex, hsk]
  have hfops : fileOps cfg env f = [FileOp.existsCheck f] := by
    unfold fileOps
    rw [hupload]
  constructor
  · rw [hk, mem_collect]
    refine ⟨f, hm, ?_⟩
    have hskipout : outSkip cfg env f = true := by
      simp [outSkip, fileOutcome, hupload]
    simp [skipDelta, hskipout]
  · intro op hop hsrc
    rw [hops, mem_collect] at hop
    obtain ⟨g, hg, hopg⟩ := hop
    have hsg : op.src = g := by
      have hall := fileOps_src cfg env g
      rw [List.all_eq_true] at hall
      have h2 := hall op hopg
      simpa [beq_iff_eq] using h2
    have hgf : g = f := by rw [← hsg, hsrc]
    subst hgf
    rw [hfops] at hopg
    simpa using hopg

/-- C8 witness: a concrete two-file run with the skip strategy where
`b.txt` already exists on the destination. -/
theorem c8_witness :
    skipEnv.sourceConnectOk = true ∧ skipEnv.listOk = true ∧
    candidatesOf skipCfg noFilt skipEnv = .ok ["a.txt", "b.txt"] ∧
    skipEnv.destConnectOk = true ∧
    (skipCfg.destUseSftp = true ∨ skipEnv.destCwdOk = true) ∧
    (["a.txt", "b.txt"] : List String).Nodup ∧
    "b.txt" ∈ (["a.txt", "b.txt"] : List String) ∧
    pyLower skipCfg.strategy = "skip" ∧
    skipEnv.destExists "b.txt" = true ∧
    ("b.txt" ∈ (transfer_files skipCfg noFilt skipEnv).1.skipped_files ∧
      ∀ op ∈ (transfer_files skipCfg noFilt skipEnv).1.ops, op.src = "b.txt" →
        op = FileOp.existsCheck "b.txt") :=
  ⟨rfl, rfl, rfl, rfl, Or.inl rfl, by decide, by decide, by decide, rfl,
    c8_skip_no_transfer skipCfg noFilt skipEnv ["a.txt", "b.txt"] rfl rfl rfl rfl
      (Or.inl rfl) (by decide) "b.txt" (by decide) (by decide) rfl⟩

end FtpTransfer
